import Mathlib

/-!
Verification of the modal (vim-style) editing command interpreter of
`examples/vim.rs`, together with the buffer capability it drives.

The interpreter itself (`Mode`, `Transition`, `Vim`, `Vim::transition`,
`constrain_cursor_for_normal_mode`, `vim_paste_below`, `vim_paste_above`,
and the event-loop state update of `main`) is embedded directly from the
source.  The text buffer (`TextArea`) is an external collaborator whose
implementation is not part of the sources under verification; its
operations are modelled from the specification's capability contract
(spec sections 4.4, 4.5 and 6) and are marked as such below.

Lines are modelled as lists of characters; cursor coordinates as natural
numbers.  The one place the source narrows a machine integer (the
`as u16` casts when repositioning the cursor) is modelled by an explicit
`% 65536`.
-/

/-- A buffer line: a sequence of characters, with no line separator inside. -/
abbrev Line := List Char

/-- Key identity of one input event (subset of the crossterm key space that
the interpreter distinguishes: printable characters, Escape, Enter,
Backspace, and the null key used as "no input"). -/
inductive Key where
  | char (c : Char)
  | esc
  | enter
  | backspace
  | null
deriving DecidableEq, Repr

/-- One key event: a key identity plus modifier flags, as in `tui_textarea::Input`. -/
structure Input where
  key : Key
  ctrl : Bool
  alt : Bool
  shift : Bool
deriving DecidableEq, Repr

/-- The default (empty) input: the null key with no modifiers, as in
`Input::default()`. -/
def Input.default : Input := { key := Key.null, ctrl := false, alt := false, shift := false }

/-- The interpreter's mode, from `enum Mode` in vim.rs. -/
inductive Mode where
  | Normal
  | Insert
  | Visual
  | Operator (c : Char)
deriving DecidableEq, Repr

/-- The result of processing one key event, from `enum Transition` in vim.rs. -/
inductive Transition where
  | Nop
  | Mode (m : Mode)
  | Pending (i : Input)
  | Quit
deriving DecidableEq, Repr

/-- Named cursor motions of the buffer capability, from `tui_textarea::CursorMove`. -/
inductive CursorMove where
  | Back
  | Forward
  | Up
  | Down
  | WordForward
  | WordEnd
  | WordBack
  | Head
  | End
  | Top
  | Bottom
  | Jump (row col : Nat)
deriving DecidableEq, Repr

/-- Scroll requests of the buffer capability, from `tui_textarea::Scrolling`
and the `(i16, i16)` delta form. -/
inductive Scrolling where
  | delta (down : Bool)
  | halfPageDown
  | halfPageUp
  | pageDown
  | pageUp
deriving DecidableEq, Repr

/-- Modelled from the spec (sections 3 and 6): the abstract editable text
buffer consumed by the interpreter.  The `TextArea` implementation is not
among the sources under verification, so its observable state is modelled
from the capability contract: the ordered lines, the cursor (row, column),
the yank register (stored as the lines of the captured text, so that the
register's textual content is those lines joined by the line separator and
the register is line-wise exactly when it has at least two lines), the
optional selection anchor, and undo/redo histories of line snapshots. -/
structure TextArea where
  lines : List Line
  row : Nat
  col : Nat
  yank : List Line
  sel : Option (Nat × Nat)
  undoStack : List (List Line)
  redoStack : List (List Line)
deriving DecidableEq, Repr

/-- The buffer's cursor as the (row, column) pair, as `TextArea::cursor`. -/
def TextArea.cursor (ta : TextArea) : Nat × Nat := (ta.row, ta.col)

/-- The line the cursor is on (the empty line if the row is out of range). -/
def TextArea.curLine (ta : TextArea) : Line := ta.lines.getD ta.row []

/-- Character count of line `r` of `lines` (0 if out of range). -/
def lineLen (lines : List Line) (r : Nat) : Nat := (lines.getD r []).length

/-- Blank characters for the simple word-boundary model. -/
def isBlank (c : Char) : Bool := c == ' ' || c == '\t'

/-- Modelled from the spec (section 6): the buffer's named cursor motions,
absent from src/.  Cursor columns follow the buffer's own (insert-style)
convention: a column may rest one past the last character of its line, and
every motion clamps the cursor into that range.  Word boundaries, which the
spec leaves abstract, are modelled as maximal runs of non-blank characters. -/
def TextArea.move_cursor (ta : TextArea) (m : CursorMove) : TextArea :=
  let n := ta.lines.length
  match m with
  | CursorMove.Back =>
      if 0 < ta.col then { ta with col := ta.col - 1 }
      else if 0 < ta.row then { ta with row := ta.row - 1, col := lineLen ta.lines (ta.row - 1) }
      else ta
  | CursorMove.Forward =>
      if ta.col < ta.curLine.length then { ta with col := ta.col + 1 }
      else if ta.row + 1 < n then { ta with row := ta.row + 1, col := 0 }
      else ta
  | CursorMove.Up =>
      if 0 < ta.row then
        { ta with row := ta.row - 1, col := min ta.col (lineLen ta.lines (ta.row - 1)) }
      else ta
  | CursorMove.Down =>
      if ta.row + 1 < n then
        { ta with row := ta.row + 1, col := min ta.col (lineLen ta.lines (ta.row + 1)) }
      else ta
  | CursorMove.Head => { ta with col := 0 }
  | CursorMove.End => { ta with col := ta.curLine.length }
  | CursorMove.Top => { ta with row := 0, col := min ta.col (lineLen ta.lines 0) }
  | CursorMove.Bottom => { ta with row := n - 1, col := min ta.col (lineLen ta.lines (n - 1)) }
  | CursorMove.Jump r c =>
      let r2 := min r (n - 1)
      { ta with row := r2, col := min c (lineLen ta.lines r2) }
  | CursorMove.WordForward =>
      let l := ta.curLine
      if ta.col < l.length then
        let rest := l.drop ta.col
        let a := (rest.takeWhile (fun c => !(isBlank c))).length
        let b := ((rest.drop a).takeWhile isBlank).length
        let c2 := ta.col + a + b
        if c2 < l.length then { ta with col := c2 }
        else if ta.row + 1 < n then { ta with row := ta.row + 1, col := 0 }
        else { ta with col := l.length }
      else if ta.row + 1 < n then { ta with row := ta.row + 1, col := 0 }
      else ta
  | CursorMove.WordEnd =>
      let l := ta.curLine
      let rest := l.drop (ta.col + 1)
      let a := (rest.takeWhile isBlank).length
      let b := ((rest.drop a).takeWhile (fun c => !(isBlank c))).length
      { ta with col := min (ta.col + a + b) (if l.isEmpty then 0 else l.length - 1) }
  | CursorMove.WordBack =>
      if 0 < ta.col then
        let pre := (ta.curLine.take ta.col).reverse
        let a := (pre.takeWhile isBlank).length
        let b := ((pre.drop a).takeWhile (fun c => !(isBlank c))).length
        { ta with col := ta.col - (a + b) }
      else if 0 < ta.row then
        { ta with row := ta.row - 1, col := lineLen ta.lines (ta.row - 1) }
      else ta

/-- Modelled from the spec (section 6): start a selection anchor at the
current cursor. -/
def TextArea.start_selection (ta : TextArea) : TextArea := { ta with sel := some ta.cursor }

/-- Modelled from the spec (section 6): cancel the active selection. -/
def TextArea.cancel_selection (ta : TextArea) : TextArea := { ta with sel := none }

/-- The register's textual content: its lines joined by the line separator,
as returned by `TextArea::yank_text`. -/
def yankText (ta : TextArea) : Line := List.intercalate ['\n'] ta.yank

/-- Order two cursor positions so the earlier one comes first. -/
def selSpan (a b : Nat × Nat) : (Nat × Nat) × (Nat × Nat) :=
  if a.1 < b.1 ∨ (a.1 = b.1 ∧ a.2 ≤ b.2) then (a, b) else (b, a)

/-- The text lying between two ordered positions, as a list of lines. -/
def extractRange (lines : List Line) (s e : Nat × Nat) : List Line :=
  if s.1 = e.1 then [((lines.getD s.1 []).take e.2).drop s.2]
  else ((lines.getD s.1 []).drop s.2) ::
       ((lines.drop (s.1 + 1)).take (e.1 - (s.1 + 1)) ++ [(lines.getD e.1 []).take e.2])

/-- The buffer lines with the text between two ordered positions removed. -/
def removeRange (lines : List Line) (s e : Nat × Nat) : List Line :=
  if s.1 = e.1 then
    lines.set s.1 (((lines.getD s.1 []).take s.2) ++ ((lines.getD s.1 []).drop e.2))
  else
    (lines.take s.1) ++
      (((lines.getD s.1 []).take s.2) ++ ((lines.getD e.1 []).drop e.2)) :: (lines.drop (e.1 + 1))

/-- Record the current lines for undo before a destructive edit. -/
def TextArea.pushEdit (ta : TextArea) : TextArea :=
  { ta with undoStack := ta.lines :: ta.undoStack, redoStack := [] }

/-- Modelled from the spec (sections 3 and 6): copy the selection into the
register (overwriting it), cancel the selection, and leave the lines
untouched; the cursor moves to the selection start. -/
def TextArea.copy (ta : TextArea) : TextArea :=
  match ta.sel with
  | none => ta
  | some a =>
      let p := selSpan a ta.cursor
      { ta with yank := extractRange ta.lines p.1 p.2, sel := none,
                row := p.1.1, col := p.1.2 }

/-- Modelled from the spec (sections 3 and 6): cut the selection into the
register and delete it from the buffer; the cursor moves to the selection
start and the selection is cancelled. -/
def TextArea.cut (ta : TextArea) : TextArea :=
  match ta.sel with
  | none => ta
  | some a =>
      let p := selSpan a ta.cursor
      { ta with lines := removeRange ta.lines p.1 p.2,
                yank := extractRange ta.lines p.1 p.2,
                sel := none, row := p.1.1, col := p.1.2,
                undoStack := ta.lines :: ta.undoStack, redoStack := [] }

/-- Modelled from the spec (sections 4.4 and 6): the buffer's paste
primitive, absent from src/.  A multi-line (line-wise) register pasted at
the start of a line inserts its lines as whole lines before that line, and
pasted elsewhere (in particular at the end of the line, where the vim layer
places the cursor first) inserts them as whole lines after it.  A
single-line (character-wise) register is inserted into the current line at
the cursor column, the cursor ending after the inserted text.  Paste never
mutates the register. -/
def TextArea.paste (ta : TextArea) : TextArea :=
  if 2 ≤ ta.yank.length then
    if ta.col = 0 then
      { ta with lines := ta.lines.take ta.row ++ ta.yank ++ ta.lines.drop ta.row,
                col := 0, undoStack := ta.lines :: ta.undoStack, redoStack := [] }
    else
      { ta with lines := ta.lines.take (ta.row + 1) ++ ta.yank ++ ta.lines.drop (ta.row + 1),
                row := ta.row + 1, col := 0,
                undoStack := ta.lines :: ta.undoStack, redoStack := [] }
  else
    let y := ta.yank.getD 0 []
    let l := ta.curLine
    { ta with lines := ta.lines.set ta.row (l.take ta.col ++ y ++ l.drop ta.col),
              col := ta.col + y.length,
              undoStack := ta.lines :: ta.undoStack, redoStack := [] }

/-- Modelled from the spec (section 6): insert a line break at the cursor. -/
def TextArea.insert_newline (ta : TextArea) : TextArea :=
  let l := ta.curLine
  { ta with lines := ta.lines.take ta.row ++ [l.take ta.col, l.drop ta.col] ++
                      ta.lines.drop (ta.row + 1),
            row := ta.row + 1, col := 0,
            undoStack := ta.lines :: ta.undoStack, redoStack := [] }

/-- Modelled from the spec (section 6): insert one character at the cursor
(part of Insert mode's default text input handling). -/
def TextArea.insertChar (ta : TextArea) (c : Char) : TextArea :=
  let l := ta.curLine
  { ta with lines := ta.lines.set ta.row (l.take ta.col ++ [c] ++ l.drop ta.col),
            col := ta.col + 1,
            undoStack := ta.lines :: ta.undoStack, redoStack := [] }

/-- Modelled from the spec (section 6): delete from the cursor to the end of
the line into the register; at the very end of a line it deletes the line
break, joining the next line. -/
def TextArea.delete_line_by_end (ta : TextArea) : TextArea :=
  let l := ta.curLine
  if ta.col < l.length then
    { ta with lines := ta.lines.set ta.row (l.take ta.col), yank := [l.drop ta.col],
              undoStack := ta.lines :: ta.undoStack, redoStack := [] }
  else if ta.row + 1 < ta.lines.length then
    { ta with lines := ta.lines.take ta.row ++ (l ++ ta.lines.getD (ta.row + 1) []) ::
                        ta.lines.drop (ta.row + 2),
              yank := [[], []],
              undoStack := ta.lines :: ta.undoStack, redoStack := [] }
  else ta

/-- Modelled from the spec (section 6): delete the character under the
cursor into the register; at the very end of a line it deletes the line
break, joining the next line. -/
def TextArea.delete_next_char (ta : TextArea) : TextArea :=
  let l := ta.curLine
  if ta.col < l.length then
    { ta with lines := ta.lines.set ta.row (l.take ta.col ++ l.drop (ta.col + 1)),
              yank := [(l.drop ta.col).take 1],
              undoStack := ta.lines :: ta.undoStack, redoStack := [] }
  else if ta.row + 1 < ta.lines.length then
    { ta with lines := ta.lines.take ta.row ++ (l ++ ta.lines.getD (ta.row + 1) []) ::
                        ta.lines.drop (ta.row + 2),
              yank := [[], []],
              undoStack := ta.lines :: ta.undoStack, redoStack := [] }
  else ta

/-- Modelled from the spec (section 6): undo one step, restoring the most
recent line snapshot and clamping the cursor into the restored buffer. -/
def TextArea.undo (ta : TextArea) : TextArea :=
  match ta.undoStack with
  | [] => ta
  | l :: rest =>
      let r := min ta.row (l.length - 1)
      { ta with lines := l, undoStack := rest, redoStack := ta.lines :: ta.redoStack,
                row := r, col := min ta.col (l.getD r []).length }

/-- Modelled from the spec (section 6): redo one step. -/
def TextArea.redo (ta : TextArea) : TextArea :=
  match ta.redoStack with
  | [] => ta
  | l :: rest =>
      let r := min ta.row (l.length - 1)
      { ta with lines := l, redoStack := rest, undoStack := ta.lines :: ta.undoStack,
                row := r, col := min ta.col (l.getD r []).length }

/-- Modelled from the spec (section 6): scrolling only moves the view.  The
viewport is not part of the modelled state, so scrolling leaves the
observable buffer state unchanged. -/
def TextArea.scroll (ta : TextArea) (_s : Scrolling) : TextArea := ta

/-- Modelled from the spec (section 4.1): Insert mode passes keys to the
buffer's default text-input handling: printable characters are inserted,
Enter breaks the line, anything else modelled here is ignored. -/
def TextArea.input (ta : TextArea) (i : Input) : TextArea :=
  match i.key with
  | Key.char c => if i.ctrl then ta else ta.insertChar c
  | Key.enter => ta.insert_newline
  | _ => ta

/-- Embedded from vim.rs (`constrain_cursor_for_normal_mode`): clamp the
cursor so that in normal mode it sits on an existing character (or at
column 0 of an empty line) of an existing row.  The Rust code passes the
clamped coordinates to `CursorMove::Jump(u16, u16)`, so the `usize -> u16`
casts appear here as `% 65536`. -/
def constrain_cursor_for_normal_mode (ta : TextArea) : TextArea :=
  if ta.lines.isEmpty then ta
  else
    let max_row := if ta.lines.length = 1 ∧ (ta.lines.getD 0 []).isEmpty then 0
                   else ta.lines.length - 1
    let row := min ta.row max_row
    let line := ta.lines.getD row []
    let max_col := if line.isEmpty then 0 else line.length - 1
    let col := min ta.col max_col
    if (row, col) ≠ ta.cursor then
      ta.move_cursor (CursorMove.Jump (row % 65536) (col % 65536))
    else ta

/-- Subtraction as Rust debug-mode `usize` subtraction: `none` models the
overflow panic. -/
def checkedSub (a b : Nat) : Option Nat := if b ≤ a then some (a - b) else none

/-- The same cursor clamping with every fallible Rust operation
(`lines[0]`, `lines.len() - 1`, `lines[row]`, `count() - 1`) made
explicit: `none` models a panic.  Its agreement with
`constrain_cursor_for_normal_mode` (proved below) shows the source's
guards make those operations safe on every state. -/
def constrainChecked (ta : TextArea) : Option TextArea :=
  if ta.lines.isEmpty then some ta
  else
    match (if ta.lines.length = 1 then
             match ta.lines[0]? with
             | none => none
             | some l0 => some l0.isEmpty
           else some false) with
    | none => none
    | some firstEmpty =>
      match (if firstEmpty then some 0 else checkedSub ta.lines.length 1) with
      | none => none
      | some max_row =>
        match ta.lines[min ta.row max_row]? with
        | none => none
        | some line =>
          match (if line.isEmpty then some 0 else checkedSub line.length 1) with
          | none => none
          | some max_col =>
            if (min ta.row max_row, min ta.col max_col) ≠ ta.cursor then
              some (ta.move_cursor
                (CursorMove.Jump ((min ta.row max_row) % 65536) ((min ta.col max_col) % 65536)))
            else some ta

/-- Embedded from vim.rs (`vim_paste_below`): vim `p`.  A register whose
text contains a line separator is pasted after moving to the end of the
current line; otherwise the cursor moves one position forward and the
register is pasted there. -/
def vim_paste_below (ta : TextArea) : TextArea :=
  if (yankText ta).contains '\n' then
    (ta.move_cursor CursorMove.End).paste
  else
    (ta.move_cursor CursorMove.Forward).paste

/-- Embedded from vim.rs (`vim_paste_above`): vim `P`.  A register whose
text contains a line separator is pasted after moving to the start of the
current line; otherwise it is pasted at the cursor with no movement. -/
def vim_paste_above (ta : TextArea) : TextArea :=
  if (yankText ta).contains '\n' then
    (ta.move_cursor CursorMove.Head).paste
  else
    ta.paste

/-- State of the vim emulation, from `struct Vim` in vim.rs. -/
structure Vim where
  mode : Mode
  pending : Input
deriving DecidableEq, Repr

/-- Embedded from vim.rs (`Vim::new`): a fresh state with empty pending input. -/
def Vim.new (m : Mode) : Vim := { mode := m, pending := Input.default }

/-- Embedded from vim.rs (`Vim::with_pending`): same mode, new pending input. -/
def Vim.with_pending (v : Vim) (p : Input) : Vim := { mode := v.mode, pending := p }

/-- Whether the incoming key doubles the active pending operator
(the `Input { key: Key::Char(c), .. } if self.mode == Mode::Operator(c)` guard). -/
def isDoubledOp (m : Mode) (k : Key) : Bool :=
  match m, k with
  | Mode.Operator c, Key.char d => c == d
  | _, _ => false

/-- Embedded from vim.rs (the `// Handle the pending operator` match at the
end of `Vim::transition`): complete a pending operator after a motion. -/
def opComplete (m : Mode) (ta : TextArea) : Transition × TextArea :=
  match m with
  | Mode.Operator c =>
      if c = 'y' then (Transition.Mode Mode.Normal, constrain_cursor_for_normal_mode ta.copy)
      else if c = 'd' then (Transition.Mode Mode.Normal, constrain_cursor_for_normal_mode ta.cut)
      else if c = 'c' then (Transition.Mode Mode.Insert, ta.cut)
      else (Transition.Nop, ta)
  | _ => (Transition.Nop, ta)

/-- Move the cursor then clamp it for normal mode, the shape every motion
arm of `Vim::transition` takes. -/
def motionStep (ta : TextArea) (m : CursorMove) : TextArea :=
  constrain_cursor_for_normal_mode (ta.move_cursor m)

/-- Whether the mode is an OperatorPending mode (the `matches!(self.mode,
Mode::Operator(_))` test of the e arm). -/
def isOperatorMode : Mode → Bool
  | Mode.Operator _ => true
  | _ => false

/-- Embedded from vim.rs (`Vim::transition`, the shared
`Mode::Normal | Mode::Visual | Mode::Operator(_)` branch): the arms of the
source match, in source order, with the current mode and pending input
passed explicitly.  Arms that the source writes without a `return` fall
through to `opComplete`; the others return their transition directly. -/
def vimSharedArm (m : Mode) (pend : Input) (input : Input) (ta : TextArea) :
    Transition × TextArea :=
  if input.key = Key.char 'h' then opComplete m (motionStep ta CursorMove.Back)
  else if input.key = Key.char 'j' then opComplete m (motionStep ta CursorMove.Down)
  else if input.key = Key.char 'k' then opComplete m (motionStep ta CursorMove.Up)
  else if input.key = Key.char 'l' then opComplete m (motionStep ta CursorMove.Forward)
  else if input.key = Key.char 'w' then opComplete m (motionStep ta CursorMove.WordForward)
  else if input.key = Key.char 'e' ∧ input.ctrl = false then
    opComplete m (constrain_cursor_for_normal_mode
      (if isOperatorMode m = true then
        (ta.move_cursor CursorMove.WordEnd).move_cursor CursorMove.Forward
      else ta.move_cursor CursorMove.WordEnd))
  else if input.key = Key.char 'b' ∧ input.ctrl = false then
    opComplete m (motionStep ta CursorMove.WordBack)
  else if input.key = Key.char '^' then opComplete m (motionStep ta CursorMove.Head)
  else if input.key = Key.char '$' then opComplete m (motionStep ta CursorMove.End)
  else if input.key = Key.char 'D' then
    (Transition.Mode Mode.Normal, constrain_cursor_for_normal_mode ta.delete_line_by_end)
  else if input.key = Key.char 'C' then
    (Transition.Mode Mode.Insert, ta.delete_line_by_end.cancel_selection)
  else if input.key = Key.char 'p' then
    (Transition.Mode Mode.Normal, constrain_cursor_for_normal_mode (vim_paste_below ta))
  else if input.key = Key.char 'P' then
    (Transition.Mode Mode.Normal, constrain_cursor_for_normal_mode (vim_paste_above ta))
  else if input.key = Key.char 'u' ∧ input.ctrl = false then
    (Transition.Mode Mode.Normal, constrain_cursor_for_normal_mode ta.undo)
  else if input.key = Key.char 'r' ∧ input.ctrl = true then
    (Transition.Mode Mode.Normal, constrain_cursor_for_normal_mode ta.redo)
  else if input.key = Key.char 'x' then
    (Transition.Mode Mode.Normal, constrain_cursor_for_normal_mode ta.delete_next_char)
  else if input.key = Key.char 'i' then (Transition.Mode Mode.Insert, ta.cancel_selection)
  else if input.key = Key.char 'a' then
    (Transition.Mode Mode.Insert, ta.cancel_selection.move_cursor CursorMove.Forward)
  else if input.key = Key.char 'A' then
    (Transition.Mode Mode.Insert, ta.cancel_selection.move_cursor CursorMove.End)
  else if input.key = Key.char 'o' then
    (Transition.Mode Mode.Insert, (ta.move_cursor CursorMove.End).insert_newline)
  else if input.key = Key.char 'O' then
    (Transition.Mode Mode.Insert,
      ((ta.move_cursor CursorMove.Head).insert_newline).move_cursor CursorMove.Up)
  else if input.key = Key.char 'I' then
    (Transition.Mode Mode.Insert, ta.cancel_selection.move_cursor CursorMove.Head)
  else if input.key = Key.char 'q' then (Transition.Quit, ta)
  else if input.key = Key.char 'e' ∧ input.ctrl = true then
    opComplete m (constrain_cursor_for_normal_mode (ta.scroll (Scrolling.delta true)))
  else if input.key = Key.char 'y' ∧ input.ctrl = true then
    opComplete m (constrain_cursor_for_normal_mode (ta.scroll (Scrolling.delta false)))
  else if input.key = Key.char 'd' ∧ input.ctrl = true then
    opComplete m (constrain_cursor_for_normal_mode (ta.scroll Scrolling.halfPageDown))
  else if input.key = Key.char 'u' ∧ input.ctrl = true then
    opComplete m (constrain_cursor_for_normal_mode (ta.scroll Scrolling.halfPageUp))
  else if input.key = Key.char 'f' ∧ input.ctrl = true then
    opComplete m (constrain_cursor_for_normal_mode (ta.scroll Scrolling.pageDown))
  else if input.key = Key.char 'b' ∧ input.ctrl = true then
    opComplete m (constrain_cursor_for_normal_mode (ta.scroll Scrolling.pageUp))
  else if input.key = Key.char 'v' ∧ input.ctrl = false ∧ m = Mode.Normal then
    (Transition.Mode Mode.Visual, ta.start_selection)
  else if input.key = Key.char 'V' ∧ input.ctrl = false ∧ m = Mode.Normal then
    (Transition.Mode Mode.Visual,
      ((ta.move_cursor CursorMove.Head).start_selection).move_cursor CursorMove.End)
  else if (input.key = Key.esc ∨ (input.key = Key.char 'v' ∧ input.ctrl = false)) ∧ m = Mode.Visual then
    (Transition.Mode Mode.Normal, ta.cancel_selection)
  else if input.key = Key.char 'g' ∧ input.ctrl = false ∧
          pend.key = Key.char 'g' ∧ pend.ctrl = false then
    opComplete m (motionStep ta CursorMove.Top)
  else if input.key = Key.char 'G' ∧ input.ctrl = false then
    opComplete m (motionStep ta CursorMove.Bottom)
  else if isDoubledOp m input.key = true ∧ input.ctrl = false then
    let ta1 := (ta.move_cursor CursorMove.Head).start_selection
    let cursor := ta1.cursor
    let ta2 := ta1.move_cursor CursorMove.Down
    let ta3 := if cursor = ta2.cursor then ta2.move_cursor CursorMove.End
               else ta2.move_cursor CursorMove.Head
    opComplete m ta3
  else if input.key = Key.char 'y' ∧ input.ctrl = false ∧ m = Mode.Normal then
    (Transition.Mode (Mode.Operator 'y'), ta.start_selection)
  else if input.key = Key.char 'd' ∧ input.ctrl = false ∧ m = Mode.Normal then
    (Transition.Mode (Mode.Operator 'd'), ta.start_selection)
  else if input.key = Key.char 'c' ∧ input.ctrl = false ∧ m = Mode.Normal then
    (Transition.Mode (Mode.Operator 'c'), ta.start_selection)
  else if input.key = Key.char 'y' ∧ input.ctrl = false ∧ m = Mode.Visual then
    (Transition.Mode Mode.Normal, ta.copy)
  else if input.key = Key.char 'd' ∧ input.ctrl = false ∧ m = Mode.Visual then
    (Transition.Mode Mode.Normal, ta.cut)
  else if input.key = Key.char 'c' ∧ input.ctrl = false ∧ m = Mode.Visual then
    (Transition.Mode Mode.Insert, ta.cut)
  else (Transition.Pending input, ta)

/-- Embedded from vim.rs (`Vim::transition`): a null key is a no-op; Insert
mode handles Escape (or ctrl-c) and default text input; every other mode is
handled by the shared arm above. -/
def Vim.transition (v : Vim) (input : Input) (ta : TextArea) : Transition × TextArea :=
  if input.key = Key.null then (Transition.Nop, ta)
  else
    match v.mode with
    | Mode.Insert =>
        if input.key = Key.esc ∨ (input.key = Key.char 'c' ∧ input.ctrl = true) then
          (Transition.Mode Mode.Normal, ta)
        else
          (Transition.Mode Mode.Insert, ta.input input)
    | m => vimSharedArm m v.pending input ta

/-- Embedded from vim.rs (`main`, the event-loop state update): apply one
key event and produce the next interpreter state, the next buffer state,
and whether the loop quits.  On an actual mode change the interpreter state
is reset (clearing pending input) and, when the new mode is Normal, the
cursor is re-clamped; a transition to the current mode or a no-op keeps the
state as is; a deferred key is stored as pending. -/
def vimStep (v : Vim) (ta : TextArea) (i : Input) : Vim × TextArea × Bool :=
  match v.transition i ta with
  | (Transition.Mode m, ta1) =>
      if v.mode ≠ m then
        let ta2 := if m = Mode.Normal then constrain_cursor_for_normal_mode ta1 else ta1
        (Vim.new m, ta2, false)
      else (v, ta1, false)
  | (Transition.Nop, ta1) => (v, ta1, false)
  | (Transition.Pending i2, ta1) => (v.with_pending i2, ta1, false)
  | (Transition.Quit, ta1) => (v, ta1, true)

/-- Run the event loop over a list of key events. -/
def runSteps : Vim → TextArea → List Input → Vim × TextArea
  | v, ta, [] => (v, ta)
  | v, ta, i :: rest =>
      let s := vimStep v ta i
      runSteps s.1 s.2.1 rest

/-- Whether the interpreter remains in Visual mode after each of the given
key events in turn. -/
def staysVisual : Vim → TextArea → List Input → Bool
  | _, _, [] => true
  | v, ta, i :: rest =>
      let s := vimStep v ta i
      if s.1.mode = Mode.Visual then staysVisual s.1 s.2.1 rest else false

/-- A plain character key event with no modifiers. -/
def keyOf (c : Char) : Input := { key := Key.char c, ctrl := false, alt := false, shift := false }

/-- The Escape key event with no modifiers. -/
def escIn : Input := { key := Key.esc, ctrl := false, alt := false, shift := false }

/-! ### Preservation lemmas for the buffer primitives -/

theorem lines_move_cursor (ta : TextArea) (m : CursorMove) :
    (ta.move_cursor m).lines = ta.lines := by
  cases m <;> simp only [TextArea.move_cursor] <;> (repeat' split) <;> rfl

theorem lines_constrain (ta : TextArea) :
    (constrain_cursor_for_normal_mode ta).lines = ta.lines := by
  unfold constrain_cursor_for_normal_mode
  dsimp only
  repeat' split
  all_goals simp [lines_move_cursor]

theorem lines_motionStep (ta : TextArea) (m : CursorMove) :
    (motionStep ta m).lines = ta.lines := by
  simp [motionStep, lines_constrain, lines_move_cursor]

theorem lines_copy (ta : TextArea) : ta.copy.lines = ta.lines := by
  unfold TextArea.copy
  repeat' split
  all_goals rfl

theorem opComplete_mode (m : Mode) (ta : TextArea) (m2 : Mode)
    (h : (opComplete m ta).1 = Transition.Mode m2) :
    m2 = Mode.Normal ∨ m2 = Mode.Insert := by
  unfold opComplete at h
  repeat' split at h
  all_goals simp_all

/-! ### Concrete states used by the claims -/

/-- The three-line scenario buffer with cursor at (1,2) and a two-line
(line-wise) register holding the text of inserted and lines. -/
def sc1TA : TextArea :=
  { lines := [['l','i','n','e','1'], ['l','i','n','e','2'], ['l','i','n','e','3']],
    row := 1, col := 2,
    yank := [['i','n','s','e','r','t','e','d'], ['l','i','n','e','s']],
    sel := none, undoStack := [], redoStack := [] }

/-- A two-line buffer with cursor on the last line. -/
def cex2TA : TextArea :=
  { lines := [['a'], ['b']], row := 1, col := 0, yank := [[]],
    sel := none, undoStack := [], redoStack := [] }

/-- A two-line buffer with cursor on the first line. -/
def cex3TA : TextArea :=
  { lines := [['a'], ['b']], row := 0, col := 0, yank := [[]],
    sel := none, undoStack := [], redoStack := [] }

/-- A pending g key, the first half of the gg sequence. -/
def gPending : Input := { key := Key.char 'g', ctrl := false, alt := false, shift := false }

/-- A small one-line buffer. -/
def oneTA : TextArea :=
  { lines := [['a','b']], row := 0, col := 0, yank := [[]],
    sel := none, undoStack := [], redoStack := [] }

/-- C1: from buffer [line1, line2, line3] with cursor (1,2) and the
line-wise register holding the two lines inserted and lines, the
paste-above key P yields [line1, inserted, lines, line2, line3] and the
paste-below key p yields [line1, line2, inserted, lines, line3]. -/
theorem C1_linewise_paste_scenario :
    ((Vim.new Mode.Normal).transition (keyOf 'P') sc1TA).2.lines
        = [['l','i','n','e','1'], ['i','n','s','e','r','t','e','d'], ['l','i','n','e','s'],
           ['l','i','n','e','2'], ['l','i','n','e','3']]
  ∧ ((Vim.new Mode.Normal).transition (keyOf 'p') sc1TA).2.lines
        = [['l','i','n','e','1'], ['l','i','n','e','2'], ['i','n','s','e','r','t','e','d'],
           ['l','i','n','e','s'], ['l','i','n','e','3']]
  ∧ (yankText sc1TA).contains '\n' = true := by decide

/-- C10: in every mode other than Insert (Normal, Visual, or any
OperatorPending), the character key q with any modifier flags produces the
Quit transition and leaves the buffer completely unchanged. -/
theorem C10_quit_any_mode (m : Mode) (p : Input) (ct al sh : Bool) (ta : TextArea)
    (h : m ≠ Mode.Insert) :
    Vim.transition { mode := m, pending := p }
        { key := Key.char 'q', ctrl := ct, alt := al, shift := sh } ta
      = (Transition.Quit, ta) := by
  cases m with
  | Insert => exact absurd rfl h
  | Normal => simp +decide [Vim.transition, vimSharedArm]
  | Visual => simp +decide [Vim.transition, vimSharedArm]
  | Operator c => simp +decide [Vim.transition, vimSharedArm]

/-- Witness for C10: ctrl+q in Visual mode quits, buffer untouched. -/
theorem C10_quit_any_mode_witness :
    (Mode.Visual ≠ Mode.Insert)
  ∧ Vim.transition { mode := Mode.Visual, pending := Input.default }
        { key := Key.char 'q', ctrl := true, alt := false, shift := false } oneTA
      = (Transition.Quit, oneTA) :=
  ⟨by decide, C10_quit_any_mode Mode.Visual Input.default true false false oneTA (by decide)⟩

/-- Counterexample to C2 as stated: on the two-line buffer [a, b] with the
cursor on the last line, completing dd leaves both lines in place (the last
one emptied), so the line count stays at N = 2 instead of dropping to
N - 1 = 1. -/
theorem C2_cex_last_line_count_unchanged :
    (runSteps (Vim.new Mode.Normal) cex2TA [keyOf 'd', keyOf 'd']).2.lines = [['a'], []]
  ∧ ¬((runSteps (Vim.new Mode.Normal) cex2TA [keyOf 'd', keyOf 'd']).2.lines.length = 2 - 1)
    := by decide

/-- Counterexample to C3 as stated: completing the doubled operator yy on
the two-line buffer [a, b] at row 0 leaves the line count at 2, not
N - 1 = 1 (a yank is not destructive). -/
theorem C3_cex_doubled_yank_keeps_count :
    (runSteps (Vim.new Mode.Normal) cex3TA [keyOf 'y', keyOf 'y']).2.lines.length = 2
  ∧ ¬((runSteps (Vim.new Mode.Normal) cex3TA [keyOf 'y', keyOf 'y']).2.lines.length = 2 - 1)
    := by decide

/-- Counterexample to C6 as stated: with a pending g stored, the key j is
consumed as a completed motion command (its transition is Nop, not
DeferToPending), yet after the event-loop update the pending slot still
holds g rather than being empty. -/
theorem C6_cex_pending_survives_consumed_key :
    (Vim.transition { mode := Mode.Normal, pending := gPending } (keyOf 'j') oneTA).1
        = Transition.Nop
  ∧ (vimStep { mode := Mode.Normal, pending := gPending } oneTA (keyOf 'j')).1.pending = gPending
  ∧ ¬(gPending = Input.default) := by decide

/-- Counterexample to C7 as stated: in OperatorPending(d), Escape is merely
deferred to pending, and after this event and the immediately following one
(another Escape) the mode is still OperatorPending(d), not Normal or
Insert. -/
theorem C7_cex_operator_mode_can_persist :
    (Vim.transition { mode := Mode.Operator 'd', pending := Input.default } escIn oneTA).1
        = Transition.Pending escIn
  ∧ ((vimStep (vimStep { mode := Mode.Operator 'd', pending := Input.default } oneTA escIn).1
        (vimStep { mode := Mode.Operator 'd', pending := Input.default } oneTA escIn).2.1
        escIn).1).mode = Mode.Operator 'd'
  ∧ ¬(Mode.Operator 'd' = Mode.Normal ∨ Mode.Operator 'd' = Mode.Insert) := by decide

/-- C6 amended: the event loop's pending slot is reset exactly by an actual
mode change (a Mode transition whose mode differs from the current one) and
overwritten by DeferToPending; a Nop transition, a Mode transition to the
current mode, or Quit leaves the previously pending key in place.  In
particular a key consumed as a completed command does not in general clear
the pending slot. -/
theorem C6_amended_pending_update (v : Vim) (ta : TextArea) (i : Input) :
    ((vimStep v ta i).1).pending =
      (match (Vim.transition v i ta).1 with
       | Transition.Pending k => k
       | Transition.Mode m => if m = v.mode then v.pending else Input.default
       | Transition.Nop => v.pending
       | Transition.Quit => v.pending) := by
  rcases h : Vim.transition v i ta with ⟨t, ta1⟩
  cases t with
  | Nop => simp [vimStep, h]
  | Quit => simp [vimStep, h]
  | Pending k => simp [vimStep, h, Vim.with_pending]
  | Mode m =>
      by_cases hm : v.mode = m
      · simp [vimStep, h, hm]
      · simp [vimStep, h, hm, Vim.new, Ne.symm hm]

theorem opComplete_ne_operator (m : Mode) (ta : TextArea) (op : Char) :
    ((opComplete m ta).1 = Transition.Mode (Mode.Operator op)) = False := by
  unfold opComplete
  repeat' split
  all_goals simp
set_option maxHeartbeats 1600000 in
/-- Every outcome of the shared Normal/Visual/Operator arm falls into one
of six shapes: an operator-completion of a buffer with unchanged lines (a
motion, scroll, or doubled-operator selection); a direct transition to
Normal or to Insert; Quit with the buffer untouched; Visual entry (only
from Normal, lines unchanged); operator entry (only from Normal, lines
unchanged); or deferral of the key with the buffer untouched. -/
theorem vimSharedArm_shape (m : Mode) (p i : Input) (ta : TextArea) :
    (∃ ta2, vimSharedArm m p i ta = opComplete m ta2 ∧ ta2.lines = ta.lines)
  ∨ ((vimSharedArm m p i ta).1 = Transition.Mode Mode.Normal
      ∨ (vimSharedArm m p i ta).1 = Transition.Mode Mode.Insert)
  ∨ vimSharedArm m p i ta = (Transition.Quit, ta)
  ∨ ((vimSharedArm m p i ta).1 = Transition.Mode Mode.Visual ∧ m = Mode.Normal
      ∧ (vimSharedArm m p i ta).2.lines = ta.lines)
  ∨ ((∃ c, (vimSharedArm m p i ta).1 = Transition.Mode (Mode.Operator c))
      ∧ m = Mode.Normal ∧ (vimSharedArm m p i ta).2.lines = ta.lines)
  ∨ vimSharedArm m p i ta = (Transition.Pending i, ta) := by
  generalize hres : vimSharedArm m p i ta = r
  unfold vimSharedArm at hres
  by_cases hx : i.key = Key.char 'h'
  case pos => rw [if_pos hx] at hres; exact Or.inl ⟨_, hres.symm, lines_motionStep ta _⟩
  rw [if_neg hx] at hres
  clear hx
  by_cases hx : i.key = Key.char 'j'
  case pos => rw [if_pos hx] at hres; exact Or.inl ⟨_, hres.symm, lines_motionStep ta _⟩
  rw [if_neg hx] at hres
  clear hx
  by_cases hx : i.key = Key.char 'k'
  case pos => rw [if_pos hx] at hres; exact Or.inl ⟨_, hres.symm, lines_motionStep ta _⟩
  rw [if_neg hx] at hres
  clear hx
  by_cases hx : i.key = Key.char 'l'
  case pos => rw [if_pos hx] at hres; exact Or.inl ⟨_, hres.symm, lines_motionStep ta _⟩
  rw [if_neg hx] at hres
  clear hx
  by_cases hx : i.key = Key.char 'w'
  case pos => rw [if_pos hx] at hres; exact Or.inl ⟨_, hres.symm, lines_motionStep ta _⟩
  rw [if_neg hx] at hres
  clear hx
  by_cases hx : i.key = Key.char 'e' ∧ i.ctrl = false
  case pos => rw [if_pos hx] at hres; refine Or.inl ⟨_, hres.symm, ?_⟩; rw [lines_constrain]; split <;> simp [lines_move_cursor]
  rw [if_neg hx] at hres
  clear hx
  by_cases hx : i.key = Key.char 'b' ∧ i.ctrl = false
  case pos => rw [if_pos hx] at hres; exact Or.inl ⟨_, hres.symm, lines_motionStep ta _⟩
  rw [if_neg hx] at hres
  clear hx
  by_cases hx : i.key = Key.char '^'
  case pos => rw [if_pos hx] at hres; exact Or.inl ⟨_, hres.symm, lines_motionStep ta _⟩
  rw [if_neg hx] at hres
  clear hx
  by_cases hx : i.key = Key.char '$'
  case pos => rw [if_pos hx] at hres; exact Or.inl ⟨_, hres.symm, lines_motionStep ta _⟩
  rw [if_neg hx] at hres
  clear hx
  by_cases hx : i.key = Key.char 'D'
  case pos => rw [if_pos hx] at hres; exact Or.inr (Or.inl (Or.inl (by rw [← hres])))
  rw [if_neg hx] at hres
  clear hx
  by_cases hx : i.key = Key.char 'C'
  case pos => rw [if_pos hx] at hres; exact Or.inr (Or.inl (Or.inr (by rw [← hres])))
  rw [if_neg hx] at hres
  clear hx
  by_cases hx : i.key = Key.char 'p'
  case pos => rw [if_pos hx] at hres; exact Or.inr (Or.inl (Or.inl (by rw [← hres])))
  rw [if_neg hx] at hres
  clear hx
  by_cases hx : i.key = Key.char 'P'
  case pos => rw [if_pos hx] at hres; exact Or.inr (Or.inl (Or.inl (by rw [← hres])))
  rw [if_neg hx] at hres
  clear hx
  by_cases hx : i.key = Key.char 'u' ∧ i.ctrl = false
  case pos => rw [if_pos hx] at hres; exact Or.inr (Or.inl (Or.inl (by rw [← hres])))
  rw [if_neg hx] at hres
  clear hx
  by_cases hx : i.key = Key.char 'r' ∧ i.ctrl = true
  case pos => rw [if_pos hx] at hres; exact Or.inr (Or.inl (Or.inl (by rw [← hres])))
  rw [if_neg hx] at hres
  clear hx
  by_cases hx : i.key = Key.char 'x'
  case pos => rw [if_pos hx] at hres; exact Or.inr (Or.inl (Or.inl (by rw [← hres])))
  rw [if_neg hx] at hres
  clear hx
  by_cases hx : i.key = Key.char 'i'
  case pos => rw [if_pos hx] at hres; exact Or.inr (Or.inl (Or.inr (by rw [← hres])))
  rw [if_neg hx] at hres
  clear hx
  by_cases hx : i.key = Key.char 'a'
  case pos => rw [if_pos hx] at hres; exact Or.inr (Or.inl (Or.inr (by rw [← hres])))
  rw [if_neg hx] at hres
  clear hx
  by_cases hx : i.key = Key.char 'A'
  case pos => rw [if_pos hx] at hres; exact Or.inr (Or.inl (Or.inr (by rw [← hres])))
  rw [if_neg hx] at hres
  clear hx
  by_cases hx : i.key = Key.char 'o'
  case pos => rw [if_pos hx] at hres; exact Or.inr (Or.inl (Or.inr (by rw [← hres])))
  rw [if_neg hx] at hres
  clear hx
  by_cases hx : i.key = Key.char 'O'
  case pos => rw [if_pos hx] at hres; exact Or.inr (Or.inl (Or.inr (by rw [← hres])))
  rw [if_neg hx] at hres
  clear hx
  by_cases hx : i.key = Key.char 'I'
  case pos => rw [if_pos hx] at hres; exact Or.inr (Or.inl (Or.inr (by rw [← hres])))
  rw [if_neg hx] at hres
  clear hx
  by_cases hx : i.key = Key.char 'q'
  case pos => rw [if_pos hx] at hres; exact Or.inr (Or.inr (Or.inl hres.symm))
  rw [if_neg hx] at hres
  clear hx
  by_cases hx : i.key = Key.char 'e' ∧ i.ctrl = true
  case pos => rw [if_pos hx] at hres; exact Or.inl ⟨_, hres.symm, by rw [lines_constrain]; rfl⟩
  rw [if_neg hx] at hres
  clear hx
  by_cases hx : i.key = Key.char 'y' ∧ i.ctrl = true
  case pos => rw [if_pos hx] at hres; exact Or.inl ⟨_, hres.symm, by rw [lines_constrain]; rfl⟩
  rw [if_neg hx] at hres
  clear hx
  by_cases hx : i.key = Key.char 'd' ∧ i.ctrl = true
  case pos => rw [if_pos hx] at hres; exact Or.inl ⟨_, hres.symm, by rw [lines_constrain]; rfl⟩
  rw [if_neg hx] at hres
  clear hx
  by_cases hx : i.key = Key.char 'u' ∧ i.ctrl = true
  case pos => rw [if_pos hx] at hres; exact Or.inl ⟨_, hres.symm, by rw [lines_constrain]; rfl⟩
  rw [if_neg hx] at hres
  clear hx
  by_cases hx : i.key = Key.char 'f' ∧ i.ctrl = true
  case pos => rw [if_pos hx] at hres; exact Or.inl ⟨_, hres.symm, by rw [lines_constrain]; rfl⟩
  rw [if_neg hx] at hres
  clear hx
  by_cases hx : i.key = Key.char 'b' ∧ i.ctrl = true
  case pos => rw [if_pos hx] at hres; exact Or.inl ⟨_, hres.symm, by rw [lines_constrain]; rfl⟩
  rw [if_neg hx] at hres
  clear hx
  by_cases hx : i.key = Key.char 'v' ∧ i.ctrl = false ∧ m = Mode.Normal
  case pos => rw [if_pos hx] at hres; exact Or.inr (Or.inr (Or.inr (Or.inl ⟨by rw [← hres], hx.2.2, by rw [← hres]; simp [TextArea.start_selection]⟩)))
  rw [if_neg hx] at hres
  clear hx
  by_cases hx : i.key = Key.char 'V' ∧ i.ctrl = false ∧ m = Mode.Normal
  case pos => rw [if_pos hx] at hres; exact Or.inr (Or.inr (Or.inr (Or.inl ⟨by rw [← hres], hx.2.2, by rw [← hres]; simp [lines_move_cursor, TextArea.start_selection]⟩)))
  rw [if_neg hx] at hres
  clear hx
  by_cases hx : (i.key = Key.esc ∨ (i.key = Key.char 'v' ∧ i.ctrl = false)) ∧ m = Mode.Visual
  case pos => rw [if_pos hx] at hres; exact Or.inr (Or.inl (Or.inl (by rw [← hres])))
  rw [if_neg hx] at hres
  clear hx
  by_cases hx : i.key = Key.char 'g' ∧ i.ctrl = false ∧ p.key = Key.char 'g' ∧ p.ctrl = false
  case pos => rw [if_pos hx] at hres; exact Or.inl ⟨_, hres.symm, lines_motionStep ta _⟩
  rw [if_neg hx] at hres
  clear hx
  by_cases hx : i.key = Key.char 'G' ∧ i.ctrl = false
  case pos => rw [if_pos hx] at hres; exact Or.inl ⟨_, hres.symm, lines_motionStep ta _⟩
  rw [if_neg hx] at hres
  clear hx
  by_cases hx : isDoubledOp m i.key = true ∧ i.ctrl = false
  case pos => rw [if_pos hx] at hres; refine Or.inl ⟨_, hres.symm, ?_⟩; dsimp only; split <;> simp [lines_move_cursor, TextArea.start_selection]
  rw [if_neg hx] at hres
  clear hx
  by_cases hx : i.key = Key.char 'y' ∧ i.ctrl = false ∧ m = Mode.Normal
  case pos => rw [if_pos hx] at hres; exact Or.inr (Or.inr (Or.inr (Or.inr (Or.inl ⟨⟨_, by rw [← hres]⟩, hx.2.2, by rw [← hres]; simp [TextArea.start_selection]⟩))))
  rw [if_neg hx] at hres
  clear hx
  by_cases hx : i.key = Key.char 'd' ∧ i.ctrl = false ∧ m = Mode.Normal
  case pos => rw [if_pos hx] at hres; exact Or.inr (Or.inr (Or.inr (Or.inr (Or.inl ⟨⟨_, by rw [← hres]⟩, hx.2.2, by rw [← hres]; simp [TextArea.start_selection]⟩))))
  rw [if_neg hx] at hres
  clear hx
  by_cases hx : i.key = Key.char 'c' ∧ i.ctrl = false ∧ m = Mode.Normal
  case pos => rw [if_pos hx] at hres; exact Or.inr (Or.inr (Or.inr (Or.inr (Or.inl ⟨⟨_, by rw [← hres]⟩, hx.2.2, by rw [← hres]; simp [TextArea.start_selection]⟩))))
  rw [if_neg hx] at hres
  clear hx
  by_cases hx : i.key = Key.char 'y' ∧ i.ctrl = false ∧ m = Mode.Visual
  case pos => rw [if_pos hx] at hres; exact Or.inr (Or.inl (Or.inl (by rw [← hres])))
  rw [if_neg hx] at hres
  clear hx
  by_cases hx : i.key = Key.char 'd' ∧ i.ctrl = false ∧ m = Mode.Visual
  case pos => rw [if_pos hx] at hres; exact Or.inr (Or.inl (Or.inl (by rw [← hres])))
  rw [if_neg hx] at hres
  clear hx
  by_cases hx : i.key = Key.char 'c' ∧ i.ctrl = false ∧ m = Mode.Visual
  case pos => rw [if_pos hx] at hres; exact Or.inr (Or.inl (Or.inr (by rw [← hres])))
  rw [if_neg hx] at hres
  clear hx
  exact Or.inr (Or.inr (Or.inr (Or.inr (Or.inr hres.symm))))

/-- C7 amended: OperatorPending(op) is entered only by a key handled in
Normal mode, and while in OperatorPending(op) any key event that changes
the mode changes it to Normal or to Insert, never to Visual or another
OperatorPending.  The return to Normal or Insert is however not guaranteed
within the same or the next key event: an unrecognized key (Escape
included) is deferred to pending and leaves the mode OperatorPending, and
q quits. -/
theorem C7_amended_operator_entry_exit :
    (∀ (v : Vim) (i : Input) (ta : TextArea) (op : Char),
        (Vim.transition v i ta).1 = Transition.Mode (Mode.Operator op) → v.mode = Mode.Normal)
  ∧ (∀ (op : Char) (p i : Input) (ta : TextArea) (m2 : Mode),
        (Vim.transition { mode := Mode.Operator op, pending := p } i ta).1
          = Transition.Mode m2 →
        m2 = Mode.Normal ∨ m2 = Mode.Insert) := by
  constructor
  · intro v i ta op h
    rcases v with ⟨m, pend⟩
    unfold Vim.transition at h
    by_cases hk : i.key = Key.null
    · rw [if_pos hk] at h; exact absurd h (by simp)
    rw [if_neg hk] at h
    cases m with
    | Normal => rfl
    | Insert =>
        exfalso
        dsimp only at h
        split at h <;> simp at h
    | Visual =>
        exfalso
        dsimp only at h
        rcases vimSharedArm_shape Mode.Visual pend i ta with
          ⟨ta2, he, _⟩ | (hB | hB) | hC | hD | hE | hF
        · rw [he] at h; rw [opComplete_ne_operator] at h; exact h
        · rw [h] at hB; exact absurd hB (by simp)
        · rw [h] at hB; exact absurd hB (by simp)
        · rw [hC] at h; exact absurd h (by simp)
        · exact absurd hD.2.1 (by simp)
        · exact absurd hE.2.1 (by simp)
        · rw [hF] at h; exact absurd h (by simp)
    | Operator c =>
        exfalso
        dsimp only at h
        rcases vimSharedArm_shape (Mode.Operator c) pend i ta with
          ⟨ta2, he, _⟩ | (hB | hB) | hC | hD | hE | hF
        · rw [he] at h; rw [opComplete_ne_operator] at h; exact h
        · rw [h] at hB; exact absurd hB (by simp)
        · rw [h] at hB; exact absurd hB (by simp)
        · rw [hC] at h; exact absurd h (by simp)
        · exact absurd hD.2.1 (by simp)
        · exact absurd hE.2.1 (by simp)
        · rw [hF] at h; exact absurd h (by simp)
  · intro op p i ta m2 h
    unfold Vim.transition at h
    by_cases hk : i.key = Key.null
    · rw [if_pos hk] at h; exact absurd h (by simp)
    rw [if_neg hk] at h
    dsimp only at h
    rcases vimSharedArm_shape (Mode.Operator op) p i ta with
      ⟨ta2, he, _⟩ | (hB | hB) | hC | hD | hE | hF
    · rw [he] at h; exact opComplete_mode _ _ _ h
    · rw [h] at hB; simp at hB; exact Or.inl hB
    · rw [h] at hB; simp at hB; exact Or.inr hB
    · rw [hC] at h; exact absurd h (by simp)
    · exact absurd hD.2.1 (by simp)
    · exact absurd hE.2.1 (by simp)
    · rw [hF] at h; exact absurd h (by simp)

/-- Witness for C7 amended: the key d in Normal mode enters
OperatorPending(d), instantiating the entry half at a concrete input; the
second half instantiated at the completing d shows dd ends in Normal mode. -/
theorem C7_amended_operator_entry_exit_witness :
    ((Vim.transition (Vim.new Mode.Normal) (keyOf 'd') oneTA).1
        = Transition.Mode (Mode.Operator 'd')
      ∧ (Vim.new Mode.Normal).mode = Mode.Normal)
  ∧ ((Vim.transition { mode := Mode.Operator 'd', pending := Input.default }
        (keyOf 'd') oneTA).1 = Transition.Mode Mode.Normal
      ∧ (Mode.Normal = Mode.Normal ∨ Mode.Normal = Mode.Insert)) :=
  ⟨⟨by decide, C7_amended_operator_entry_exit.1 (Vim.new Mode.Normal) (keyOf 'd') oneTA 'd'
      (by decide)⟩,
   ⟨by decide, C7_amended_operator_entry_exit.2 'd' Input.default (keyOf 'd') oneTA
      Mode.Normal (by decide)⟩⟩
theorem length_pos_of_not_isEmpty {α : Type} {l : List α} (h : ¬l.isEmpty = true) :
    0 < l.length := by
  cases l with
  | nil => exact absurd rfl h
  | cons a t => simp

theorem getElem?_eq_getD {α : Type} [Inhabited α] (l : List α) (n : Nat) (h : n < l.length) :
    l[n]? = some (l.getD n default) := by
  rw [List.getD_eq_getElem?_getD, List.getElem?_eq_getElem h]
  rfl

theorem constrainChecked_eq (ta : TextArea) :
    constrainChecked ta = some (constrain_cursor_for_normal_mode ta) := by
  unfold constrainChecked constrain_cursor_for_normal_mode
  by_cases h0 : ta.lines.isEmpty
  · simp [h0]
  · rw [if_neg h0, if_neg h0]
    have hlen : 0 < ta.lines.length := length_pos_of_not_isEmpty h0
    have hget0 : ta.lines[0]? = some (ta.lines.getD 0 []) := getElem?_eq_getD ta.lines 0 hlen
    have hsub : checkedSub ta.lines.length 1 = some (ta.lines.length - 1) := by
      unfold checkedSub
      rw [if_pos (by omega : 1 ≤ ta.lines.length)]
    have hrow : min ta.row (ta.lines.length - 1) < ta.lines.length :=
      lt_of_le_of_lt (min_le_right _ _) (Nat.sub_lt hlen Nat.one_pos)
    have hgetrow : ta.lines[min ta.row (ta.lines.length - 1)]?
        = some (ta.lines.getD (min ta.row (ta.lines.length - 1)) []) :=
      getElem?_eq_getD ta.lines _ hrow
    by_cases hfe : ta.lines.length = 1 ∧ (ta.lines.getD 0 []).isEmpty = true
    · rw [if_pos hfe.1, hget0]
      dsimp only
      rw [if_pos hfe.2, if_pos hfe]
      dsimp only
      rw [Nat.min_zero, hget0]
      dsimp only
      rw [if_pos hfe.2]
      dsimp only
      rw [Nat.min_zero, ← apply_ite some, if_pos hfe.2, Nat.min_zero]
    · rw [if_neg hfe]
      by_cases h1 : ta.lines.length = 1
      · have he : ¬(ta.lines.getD 0 []).isEmpty = true := fun hc => hfe ⟨h1, hc⟩
        rw [if_pos h1, hget0]
        dsimp only
        rw [if_neg he, hsub]
        dsimp only
        rw [hgetrow]
        dsimp only
        by_cases he2 : (ta.lines.getD (min ta.row (ta.lines.length - 1)) []).isEmpty = true
        · rw [if_pos he2, if_pos he2]
          dsimp only
          rw [Nat.min_zero, ← apply_ite some]
        · have hsubc : checkedSub
              (ta.lines.getD (min ta.row (ta.lines.length - 1)) []).length 1
              = some ((ta.lines.getD (min ta.row (ta.lines.length - 1)) []).length - 1) := by
            unfold checkedSub
            rw [if_pos (by
              have := length_pos_of_not_isEmpty he2
              omega : 1 ≤ (ta.lines.getD (min ta.row (ta.lines.length - 1)) []).length)]
          rw [if_neg he2, if_neg he2, hsubc]
          dsimp only
          rw [← apply_ite some]
      · rw [if_neg h1]
        dsimp only
        rw [if_neg Bool.false_ne_true, hsub]
        dsimp only
        rw [hgetrow]
        dsimp only
        by_cases he2 : (ta.lines.getD (min ta.row (ta.lines.length - 1)) []).isEmpty = true
        · rw [if_pos he2, if_pos he2]
          dsimp only
          rw [Nat.min_zero, ← apply_ite some]
        · have hsubc : checkedSub
              (ta.lines.getD (min ta.row (ta.lines.length - 1)) []).length 1
              = some ((ta.lines.getD (min ta.row (ta.lines.length - 1)) []).length - 1) := by
            unfold checkedSub
            rw [if_pos (by
              have := length_pos_of_not_isEmpty he2
              omega : 1 ≤ (ta.lines.getD (min ta.row (ta.lines.length - 1)) []).length)]
          rw [if_neg he2, if_neg he2, hsubc]
          dsimp only
          rw [← apply_ite some]

/-- C9: the transition function is total: for every mode, pending key, and
input event it returns exactly one of the four Transition variants, and the
one place the source indexes into the line list or subtracts from an
unsigned count (the cursor clamping) agrees with its fully checked variant,
in which every fallible Rust operation is modelled explicitly — so no key
combination can make the interpreter fail. -/
theorem C9_transition_total (v : Vim) (i : Input) (ta : TextArea) :
    ((Vim.transition v i ta).1 = Transition.Nop
      ∨ (∃ m, (Vim.transition v i ta).1 = Transition.Mode m)
      ∨ (∃ k, (Vim.transition v i ta).1 = Transition.Pending k)
      ∨ (Vim.transition v i ta).1 = Transition.Quit)
  ∧ constrainChecked ta = some (constrain_cursor_for_normal_mode ta) := by
  refine ⟨?_, constrainChecked_eq ta⟩
  rcases h : (Vim.transition v i ta).1 with _ | m | k | _
  · exact Or.inl rfl
  · exact Or.inr (Or.inl ⟨m, rfl⟩)
  · exact Or.inr (Or.inr (Or.inl ⟨k, rfl⟩))
  · exact Or.inr (Or.inr (Or.inr rfl))

theorem opComplete_visual (ta : TextArea) :
    opComplete Mode.Visual ta = (Transition.Nop, ta) := rfl

theorem transition_visual_lines (pend i : Input) (ta : TextArea) :
    ((Vim.transition { mode := Mode.Visual, pending := pend } i ta).2.lines = ta.lines)
  ∨ (Vim.transition { mode := Mode.Visual, pending := pend } i ta).1 = Transition.Mode Mode.Normal
  ∨ (Vim.transition { mode := Mode.Visual, pending := pend } i ta).1 = Transition.Mode Mode.Insert
    := by
  by_cases hk : i.key = Key.null
  · left
    unfold Vim.transition
    rw [if_pos hk]
  · have ht : Vim.transition { mode := Mode.Visual, pending := pend } i ta
        = vimSharedArm Mode.Visual pend i ta := by
      unfold Vim.transition
      rw [if_neg hk]
    rw [ht]
    rcases vimSharedArm_shape Mode.Visual pend i ta with
      ⟨ta2, he, hl⟩ | (hB | hB) | hC | hD | hE | hF
    · left
      rw [he, opComplete_visual]
      exact hl
    · exact Or.inr (Or.inl hB)
    · exact Or.inr (Or.inr hB)
    · left
      rw [hC]
    · exact absurd hD.2.1 (by simp)
    · exact absurd hE.2.1 (by simp)
    · left
      rw [hF]

theorem vimStep_visual_lines (v : Vim) (ta : TextArea) (i : Input)
    (hv : v.mode = Mode.Visual) (hstay : ((vimStep v ta i).1).mode = Mode.Visual) :
    (vimStep v ta i).2.1.lines = ta.lines := by
  rcases v with ⟨m, pend⟩
  dsimp only at hv
  subst hv
  rcases transition_visual_lines pend i ta with hL | hM | hM
  · rcases ht : Vim.transition { mode := Mode.Visual, pending := pend } i ta with ⟨t, ta1⟩
    rw [ht] at hL
    dsimp only at hL
    cases t with
    | Nop => simp [vimStep, ht, hL]
    | Quit => simp [vimStep, ht, hL]
    | Pending k => simp [vimStep, ht, hL]
    | Mode m2 =>
        by_cases hm : Mode.Visual = m2
        · cases hm
          simp [vimStep, ht, hL]
        · simp only [vimStep, ht, if_pos (by simpa using hm)]
          by_cases hn : m2 = Mode.Normal
          · simp [hn, lines_constrain, hL]
          · simp [hn, hL]
  · exfalso
    rcases ht : Vim.transition { mode := Mode.Visual, pending := pend } i ta with ⟨t, ta1⟩
    rw [ht] at hM
    dsimp only at hM
    subst hM
    simp [vimStep, ht, Vim.new] at hstay
  · exfalso
    rcases ht : Vim.transition { mode := Mode.Visual, pending := pend } i ta with ⟨t, ta1⟩
    rw [ht] at hM
    dsimp only at hM
    subst hM
    simp [vimStep, ht, Vim.new] at hstay

theorem staysVisual_lines (l : List Input) :
    ∀ (v : Vim) (ta : TextArea), v.mode = Mode.Visual → staysVisual v ta l = true →
      (runSteps v ta l).2.lines = ta.lines := by
  induction l with
  | nil => intro v ta hv hs; rfl
  | cons i rest ih =>
      intro v ta hv hs
      unfold staysVisual at hs
      dsimp only at hs
      split at hs
      · have h1 : (runSteps v ta (i :: rest)).2
            = (runSteps (vimStep v ta i).1 (vimStep v ta i).2.1 rest).2 := rfl
        rw [h1, ih _ _ (by assumption) hs]
        exact vimStep_visual_lines v ta i hv (by assumption)
      · exact absurd hs (by simp)

/-- C8: entering Visual with v starts a selection and leaves the lines
untouched; every key event that keeps the interpreter in Visual mode leaves
the lines untouched (so at the moment Escape is pressed they still equal
the lines from immediately before Visual was entered); and Escape in Visual
mode transitions to Normal, cancels the selection, and leaves the lines
unchanged. -/
theorem C8_visual_escape (v : Vim) (ta : TextArea) (l : List Input) :
    (Vim.transition (Vim.new Mode.Normal) (keyOf 'v') ta
        = (Transition.Mode Mode.Visual, ta.start_selection)
      ∧ ta.start_selection.lines = ta.lines)
  ∧ (v.mode = Mode.Visual →
      Vim.transition v escIn ta = (Transition.Mode Mode.Normal, ta.cancel_selection)
      ∧ ta.cancel_selection.lines = ta.lines ∧ ta.cancel_selection.sel = none)
  ∧ (v.mode = Mode.Visual → staysVisual v ta l = true →
      (runSteps v ta l).2.lines = ta.lines) := by
  refine ⟨⟨rfl, rfl⟩, ?_, ?_⟩
  · intro hv
    rcases v with ⟨m, pend⟩
    dsimp only at hv
    subst hv
    exact ⟨rfl, rfl, rfl⟩
  · intro hv hs
    exact staysVisual_lines l v ta hv hs

/-- Witness for C8: from a concrete Visual state, a j motion keeps the mode
Visual and preserves the lines, and Escape returns to Normal cancelling the
selection. -/
theorem C8_visual_escape_witness :
    (Vim.transition { mode := Mode.Visual, pending := Input.default } escIn oneTA
        = (Transition.Mode Mode.Normal, oneTA.cancel_selection))
  ∧ staysVisual { mode := Mode.Visual, pending := Input.default } oneTA [keyOf 'j'] = true
  ∧ (runSteps { mode := Mode.Visual, pending := Input.default } oneTA [keyOf 'j']).2.lines
      = oneTA.lines :=
  ⟨((C8_visual_escape { mode := Mode.Visual, pending := Input.default } oneTA
      [keyOf 'j']).2.1 rfl).1,
   by decide,
   (C8_visual_escape { mode := Mode.Visual, pending := Input.default } oneTA
      [keyOf 'j']).2.2 rfl (by decide)⟩

/-- The character-wise register XYZ of the scenario. -/
def xyzLine : Line := ['X','Y','Z']

/-- A one-line buffer holding `pre` with the cursor at column `c` and the
character-wise register XYZ. -/
def c5TA (pre : Line) (c : Nat) : TextArea :=
  { lines := [pre], row := 0, col := c, yank := [xyzLine], sel := none,
    undoStack := [], redoStack := [] }

/-- C5: pasting the character-wise register XYZ with paste-above at column
c of a line pre yields pre[0..c] ++ XYZ ++ pre[c..], and with paste-below
it yields pre[0..c+1] ++ XYZ ++ pre[c+1..]. -/
theorem C5_charwise_paste (pre : Line) (c : Nat) (h : c ≤ pre.length) :
    (vim_paste_above (c5TA pre c)).lines = [pre.take c ++ xyzLine ++ pre.drop c]
  ∧ (vim_paste_below (c5TA pre c)).lines = [pre.take (c + 1) ++ xyzLine ++ pre.drop (c + 1)]
    := by
  have hnc : (yankText (c5TA pre c)).contains '\n' = false := rfl
  have hncn : ¬((yankText (c5TA pre c)).contains '\n' = true) := by
    rw [hnc]
    exact Bool.false_ne_true
  constructor
  · unfold vim_paste_above
    rw [if_neg hncn]
    simp [TextArea.paste, c5TA, TextArea.curLine]
  · unfold vim_paste_below
    rw [if_neg hncn]
    by_cases hcl : c < pre.length
    · simp [TextArea.move_cursor, c5TA, TextArea.curLine, hcl, TextArea.paste]
    · have hce : c = pre.length := le_antisymm h (le_of_not_lt hcl)
      subst hce
      simp [TextArea.move_cursor, c5TA, TextArea.curLine, TextArea.paste,
        List.take_length, List.drop_length,
        List.take_of_length_le (Nat.le_succ pre.length),
        List.drop_of_length_le (Nat.le_succ pre.length)]

/-- Witness for C5: the scenario buffer hello world at column 6. -/
theorem C5_charwise_paste_witness :
    (6 ≤ (['h','e','l','l','o',' ','w','o','r','l','d'] : Line).length)
  ∧ (vim_paste_above (c5TA ['h','e','l','l','o',' ','w','o','r','l','d'] 6)).lines
      = [['h','e','l','l','o',' ','X','Y','Z','w','o','r','l','d']]
  ∧ (vim_paste_below (c5TA ['h','e','l','l','o',' ','w','o','r','l','d'] 6)).lines
      = [['h','e','l','l','o',' ','w','X','Y','Z','o','r','l','d']] := by
  refine ⟨by decide, ?_⟩
  have hmain := C5_charwise_paste ['h','e','l','l','o',' ','w','o','r','l','d'] 6 (by decide)
  exact ⟨by rw [hmain.1]; decide, by rw [hmain.2]; decide⟩

theorem yank_move_cursor (ta : TextArea) (m : CursorMove) :
    (ta.move_cursor m).yank = ta.yank := by
  cases m <;> simp only [TextArea.move_cursor] <;> (repeat' split) <;> rfl

theorem yank_constrain (ta : TextArea) :
    (constrain_cursor_for_normal_mode ta).yank = ta.yank := by
  unfold constrain_cursor_for_normal_mode
  dsimp only
  repeat' split
  all_goals simp [yank_move_cursor]

/-- A buffer state with all seven fields given positionally. -/
def mkState (ls : List Line) (r c : Nat) (yk : List Line) (s0 : Option (Nat × Nat))
    (us rs : List (List Line)) : TextArea :=
  { lines := ls, row := r, col := c, yank := yk, sel := s0, undoStack := us, redoStack := rs }

theorem opComplete_d (ta : TextArea) :
    opComplete (Mode.Operator 'd') ta
      = (Transition.Mode Mode.Normal, constrain_cursor_for_normal_mode ta.cut) := rfl

/-- C2 amended: completing the doubled destructive operator dd with the
cursor on the last line leaves the line count unchanged at N (the last
line's text is deleted but the line itself remains, also when N is greater
than 1), and the register afterwards holds exactly the last line's original
text with no trailing line separator (a single-line, character-wise
capture). -/
theorem C2_amended_last_line (ls : List Line) (c : Nat) (p : Input) (yk : List Line)
    (s0 : Option (Nat × Nat)) (us rs : List (List Line)) (hne : ls ≠ [])
    (hnl : ∀ l ∈ ls, ('\n' : Char) ∉ l) :
    let res := Vim.transition { mode := Mode.Operator 'd', pending := p } (keyOf 'd')
        (mkState ls (ls.length - 1) c yk s0 us rs)
    res.1 = Transition.Mode Mode.Normal
    ∧ res.2.lines.length = ls.length
    ∧ res.2.yank = [ls.getD (ls.length - 1) []]
    ∧ ('\n' : Char) ∉ yankText res.2 := by
  intro res
  have hN : 0 < ls.length := List.length_pos.mpr hne
  have ht : res = vimSharedArm (Mode.Operator 'd') p (keyOf 'd')
      (mkState ls (ls.length - 1) c yk s0 us rs) := by
    show Vim.transition _ _ _ = _
    unfold Vim.transition
    rw [if_neg (by decide : ¬(keyOf 'd').key = Key.null)]
  have harm : vimSharedArm (Mode.Operator 'd') p (keyOf 'd')
      (mkState ls (ls.length - 1) c yk s0 us rs)
      = opComplete (Mode.Operator 'd')
          (if (mkState ls (ls.length - 1) 0 yk (some (ls.length - 1, 0)) us rs).cursor
              = ((mkState ls (ls.length - 1) 0 yk (some (ls.length - 1, 0)) us
                    rs).move_cursor CursorMove.Down).cursor then
            ((mkState ls (ls.length - 1) 0 yk (some (ls.length - 1, 0)) us
                rs).move_cursor CursorMove.Down).move_cursor CursorMove.End
          else
            ((mkState ls (ls.length - 1) 0 yk (some (ls.length - 1, 0)) us
                rs).move_cursor CursorMove.Down).move_cursor CursorMove.Head) := rfl
  have hdown : (mkState ls (ls.length - 1) 0 yk (some (ls.length - 1, 0)) us
        rs).move_cursor CursorMove.Down
      = mkState ls (ls.length - 1) 0 yk (some (ls.length - 1, 0)) us rs := by
    unfold mkState TextArea.move_cursor
    dsimp only
    rw [if_neg (by omega : ¬(ls.length - 1 + 1 < ls.length))]
  rw [harm, hdown, if_pos rfl] at ht
  have hend : (mkState ls (ls.length - 1) 0 yk (some (ls.length - 1, 0)) us
        rs).move_cursor CursorMove.End
      = mkState ls (ls.length - 1) (ls.getD (ls.length - 1) []).length yk
          (some (ls.length - 1, 0)) us rs := rfl
  rw [hend] at ht
  have hspan : selSpan (ls.length - 1, 0) (ls.length - 1, (ls.getD (ls.length - 1) []).length)
      = ((ls.length - 1, 0), (ls.length - 1, (ls.getD (ls.length - 1) []).length)) := by
    unfold selSpan
    rw [if_pos (Or.inr ⟨rfl, Nat.zero_le _⟩)]
  have hex : extractRange ls (ls.length - 1, 0)
      (ls.length - 1, (ls.getD (ls.length - 1) []).length) = [ls.getD (ls.length - 1) []] := by
    unfold extractRange
    rw [if_pos rfl]
    dsimp only
    rw [List.drop_zero, List.take_length]
  have hrm : removeRange ls (ls.length - 1, 0)
      (ls.length - 1, (ls.getD (ls.length - 1) []).length) = ls.set (ls.length - 1) [] := by
    unfold removeRange
    rw [if_pos rfl]
    dsimp only
    rw [List.take_zero, List.drop_length, List.nil_append]
  have hcut : (mkState ls (ls.length - 1) (ls.getD (ls.length - 1) []).length yk
        (some (ls.length - 1, 0)) us rs).cut
      = mkState (ls.set (ls.length - 1) []) (ls.length - 1) 0 [ls.getD (ls.length - 1) []]
          none (ls :: us) [] := by
    unfold mkState TextArea.cut
    dsimp only [TextArea.cursor]
    rw [hspan]
    dsimp only
    rw [hex, hrm]
  have hop : res = (Transition.Mode Mode.Normal,
      constrain_cursor_for_normal_mode
        (mkState (ls.set (ls.length - 1) []) (ls.length - 1) 0 [ls.getD (ls.length - 1) []]
          none (ls :: us) [])) := by
    rw [ht, opComplete_d, hcut]
  have hyt : yankText (constrain_cursor_for_normal_mode
      (mkState (ls.set (ls.length - 1) []) (ls.length - 1) 0 [ls.getD (ls.length - 1) []]
        none (ls :: us) [])) = ls.getD (ls.length - 1) [] := by
    unfold yankText
    rw [yank_constrain]
    simp [mkState, List.intercalate]
  refine ⟨by rw [hop], ?_, ?_, ?_⟩
  · rw [hop]
    dsimp only
    rw [lines_constrain]
    exact List.length_set ls _ _
  · rw [hop]
    dsimp only
    rw [yank_constrain]
    rfl
  · rw [hop]
    dsimp only
    rw [hyt]
    have hmem : ls.getD (ls.length - 1) [] ∈ ls := by
      rw [List.getD_eq_getElem?_getD,
        List.getElem?_eq_getElem (by omega : ls.length - 1 < ls.length)]
      exact List.getElem_mem _
    exact hnl _ hmem

/-- Witness for C2 amended: dd on the last line of the two-line buffer
[a, b]. -/
theorem C2_amended_last_line_witness :
    (([['a'], ['b']] : List Line) ≠ []
      ∧ ∀ l ∈ ([['a'], ['b']] : List Line), ('\n' : Char) ∉ l)
  ∧ (let res := Vim.transition { mode := Mode.Operator 'd', pending := Input.default }
        (keyOf 'd') (mkState [['a'], ['b']] (([['a'], ['b']] : List Line).length - 1) 0
          [[]] none [] [])
     res.1 = Transition.Mode Mode.Normal
     ∧ res.2.lines.length = ([['a'], ['b']] : List Line).length
     ∧ res.2.yank = [([['a'], ['b']] : List Line).getD (([['a'], ['b']] : List Line).length - 1) []]
     ∧ ('\n' : Char) ∉ yankText res.2) :=
  ⟨⟨by decide, by decide⟩,
   C2_amended_last_line [['a'], ['b']] 0 Input.default [[]] none [] [] (by decide) (by decide)⟩

/-- C3 amended: the claim holds for the destructive doubled operator dd at
any row r strictly before the last: the buffer then has exactly N-1 lines
and the register holds the original text of line r followed by exactly one
line separator (a two-chunk, line-wise capture).  It fails as stated for
the non-destructive yy (which leaves the count at N) and at the last row
(where the selection excludes a trailing separator). -/
theorem C3_amended_doubled_delete (ls : List Line) (r c : Nat) (p : Input) (yk : List Line)
    (s0 : Option (Nat × Nat)) (us rs : List (List Line)) (h1 : r + 1 < ls.length) :
    let res := Vim.transition { mode := Mode.Operator 'd', pending := p } (keyOf 'd')
        (mkState ls r c yk s0 us rs)
    res.1 = Transition.Mode Mode.Normal
    ∧ res.2.lines.length = ls.length - 1
    ∧ res.2.yank = [ls.getD r [], []]
    ∧ yankText res.2 = ls.getD r [] ++ ['\n']
    ∧ ('\n' : Char) ∈ yankText res.2 := by
  intro res
  have ht : res = vimSharedArm (Mode.Operator 'd') p (keyOf 'd') (mkState ls r c yk s0 us rs)
      := by
    show Vim.transition _ _ _ = _
    unfold Vim.transition
    rw [if_neg (by decide : ¬(keyOf 'd').key = Key.null)]
  have harm : vimSharedArm (Mode.Operator 'd') p (keyOf 'd') (mkState ls r c yk s0 us rs)
      = opComplete (Mode.Operator 'd')
          (if (mkState ls r 0 yk (some (r, 0)) us rs).cursor
              = ((mkState ls r 0 yk (some (r, 0)) us rs).move_cursor CursorMove.Down).cursor
           then
            ((mkState ls r 0 yk (some (r, 0)) us rs).move_cursor CursorMove.Down).move_cursor
              CursorMove.End
          else
            ((mkState ls r 0 yk (some (r, 0)) us rs).move_cursor CursorMove.Down).move_cursor
              CursorMove.Head) := rfl
  have hdown : (mkState ls r 0 yk (some (r, 0)) us rs).move_cursor CursorMove.Down
      = mkState ls (r + 1) 0 yk (some (r, 0)) us rs := by
    unfold mkState TextArea.move_cursor
    dsimp only
    rw [if_pos h1, Nat.zero_min]
  have hne2 : ¬((mkState ls r 0 yk (some (r, 0)) us rs).cursor
      = (mkState ls (r + 1) 0 yk (some (r, 0)) us rs).cursor) := by
    unfold mkState TextArea.cursor
    dsimp only
    simp
  rw [harm, hdown, if_neg hne2] at ht
  have hhead2 : (mkState ls (r + 1) 0 yk (some (r, 0)) us rs).move_cursor CursorMove.Head
      = mkState ls (r + 1) 0 yk (some (r, 0)) us rs := rfl
  rw [hhead2] at ht
  have hspan : selSpan (r, 0) (r + 1, 0) = ((r, 0), (r + 1, 0)) := by
    unfold selSpan
    rw [if_pos (Or.inl (by omega : (r, 0).1 < (r + 1, 0).1))]
  have hrne : ¬(((r, 0) : Nat × Nat).1 = ((r + 1, 0) : Nat × Nat).1) := by
    dsimp only
    omega
  have hex : extractRange ls (r, 0) (r + 1, 0) = [ls.getD r [], []] := by
    unfold extractRange
    rw [if_neg hrne]
    dsimp only
    rw [List.drop_zero, List.take_zero]
    simp
  have hrm : removeRange ls (r, 0) (r + 1, 0)
      = ls.take r ++ ls.getD (r + 1) [] :: ls.drop (r + 1 + 1) := by
    unfold removeRange
    rw [if_neg hrne]
    dsimp only
    rw [List.take_zero, List.drop_zero, List.nil_append]
  have hcut : (mkState ls (r + 1) 0 yk (some (r, 0)) us rs).cut
      = mkState (ls.take r ++ ls.getD (r + 1) [] :: ls.drop (r + 1 + 1)) r 0
          [ls.getD r [], []] none (ls :: us) [] := by
    unfold mkState TextArea.cut
    dsimp only [TextArea.cursor]
    rw [hspan]
    dsimp only
    rw [hex, hrm]
  have hop : res = (Transition.Mode Mode.Normal,
      constrain_cursor_for_normal_mode
        (mkState (ls.take r ++ ls.getD (r + 1) [] :: ls.drop (r + 1 + 1)) r 0
          [ls.getD r [], []] none (ls :: us) [])) := by
    rw [ht, opComplete_d, hcut]
  have hyt : yankText (constrain_cursor_for_normal_mode
      (mkState (ls.take r ++ ls.getD (r + 1) [] :: ls.drop (r + 1 + 1)) r 0
        [ls.getD r [], []] none (ls :: us) [])) = ls.getD r [] ++ ['\n'] := by
    unfold yankText
    rw [yank_constrain]
    simp [mkState, List.intercalate]
  refine ⟨by rw [hop], ?_, ?_, by rw [hop]; exact hyt, ?_⟩
  · rw [hop]
    dsimp only
    rw [lines_constrain]
    simp [mkState, List.length_take, List.length_drop]
    omega
  · rw [hop]
    dsimp only
    rw [yank_constrain]
    rfl
  · rw [hop]
    dsimp only
    rw [hyt]
    simp

/-- Witness for C3 amended: dd on row 0 of a three-line buffer. -/
theorem C3_amended_doubled_delete_witness :
    (0 + 1 < ([['a','b'], ['c'], ['d']] : List Line).length)
  ∧ (let res := Vim.transition { mode := Mode.Operator 'd', pending := Input.default }
        (keyOf 'd') (mkState [['a','b'], ['c'], ['d']] 0 1 [[]] none [] [])
     res.1 = Transition.Mode Mode.Normal
     ∧ res.2.lines.length = ([['a','b'], ['c'], ['d']] : List Line).length - 1
     ∧ res.2.yank = [([['a','b'], ['c'], ['d']] : List Line).getD 0 [], []]
     ∧ yankText res.2 = ([['a','b'], ['c'], ['d']] : List Line).getD 0 [] ++ ['\n']
     ∧ ('\n' : Char) ∈ yankText res.2) :=
  ⟨by decide,
   C3_amended_doubled_delete [['a','b'], ['c'], ['d']] 0 1 Input.default [[]] none [] []
     (by decide)⟩
/-- A buffer of 65537 lines: 65536 one-character lines followed by abc. -/
def badLines : List Line := List.replicate 65536 (['x'] : Line) ++ [['a','b','c']]

theorem badLines_length : badLines.length = 65537 := by
  unfold badLines
  rw [List.length_append, List.length_replicate]
  rfl

theorem badLines_last : badLines.getD 65536 [] = ['a','b','c'] := by
  unfold badLines
  rw [List.getD_eq_getElem?_getD,
    List.getElem?_append_right (by rw [List.length_replicate]), List.length_replicate,
    Nat.sub_self]
  rfl

theorem badLines_first : badLines.getD 0 [] = ['x'] := by
  unfold badLines
  rw [List.getD_eq_getElem?_getD, List.getElem?_append, List.length_replicate,
    if_pos (by omega : (0 : Nat) < 65536), List.getElem?_replicate,
    if_pos (by omega : (0 : Nat) < 65536)]
  rfl

theorem badLines_not_empty : ¬(badLines.isEmpty = true) := by
  have h := badLines_length
  cases hb : badLines with
  | nil => rw [hb] at h; simp at h
  | cons a t => simp

theorem c4_end_move : (mkState badLines 65536 0 [[]] none [] []).move_cursor CursorMove.End
    = mkState badLines 65536 3 [[]] none [] [] := by
  unfold TextArea.move_cursor
  dsimp only
  unfold TextArea.curLine mkState
  dsimp only
  rw [badLines_last]
  rfl

theorem c4_constrain : constrain_cursor_for_normal_mode (mkState badLines 65536 3 [[]] none [] [])
    = mkState badLines 0 1 [[]] none [] [] := by
  unfold constrain_cursor_for_normal_mode mkState
  dsimp only
  rw [if_neg badLines_not_empty, badLines_length,
    if_neg (show ¬((65537 : Nat) = 1 ∧ (badLines.getD 0 []).isEmpty = true) from
      fun hc => absurd hc.1 (by norm_num)),
    show (65537 : Nat) - 1 = 65536 from rfl, min_self, badLines_last,
    if_neg (show ¬(List.isEmpty ['a','b','c'] = true) from by decide),
    show (List.length ['a','b','c'] : Nat) - 1 = 2 from rfl,
    show (3 : Nat) ⊓ 2 = 2 from rfl,
    if_pos (show ((65536 : Nat), (2 : Nat))
        ≠ ({ lines := badLines, row := 65536, col := 3, yank := [[]], sel := none,
             undoStack := [], redoStack := [] } : TextArea).cursor from by
      unfold TextArea.cursor
      dsimp only
      simp),
    Nat.mod_self, show (2 : Nat) % 65536 = 2 from rfl]
  unfold TextArea.move_cursor
  dsimp only
  rw [badLines_length, show (65537 : Nat) - 1 = 65536 from rfl, Nat.zero_min]
  unfold lineLen
  rw [badLines_first]
  rfl

/-- The result of handling the motion key dollar in Normal mode on the
65537-line buffer from the legal position (65536, 0). -/
def c4Result : Transition × TextArea :=
  Vim.transition (Vim.new Mode.Normal) (keyOf '$') (mkState badLines 65536 0 [[]] none [] [])

/-- C4 fails on the code: handling the motion key dollar in Normal mode on
a 65537-line buffer from the legal position (65536, 0) leaves the cursor at
(0, 1) on the one-character line x, violating the claimed bound
column <= max(0, charCount - 1) = 0.  The usize-to-u16 casts in
`constrain_cursor_for_normal_mode` wrap row 65536 to 0 when repositioning,
so the clamped column (computed against line 65536) lands on a shorter
line; the function's own doc comment ("cursor should be ON a character")
is contradicted. -/
theorem C4_u16_jump_breaks_bound :
    c4Result.1 = Transition.Nop
    ∧ c4Result.2 = mkState badLines 0 1 [[]] none [] []
    ∧ (c4Result.2.lines.getD c4Result.2.row []).length = 1
    ∧ ¬(c4Result.2.col ≤ max 0 ((c4Result.2.lines.getD c4Result.2.row []).length - 1))
    ∧ 65536 = badLines.length - 1 := by
  have ht : c4Result = opComplete Mode.Normal
      (motionStep (mkState badLines 65536 0 [[]] none [] []) CursorMove.End) := by
    unfold c4Result Vim.transition
    rw [if_neg (by decide : ¬(keyOf '$').key = Key.null)]
    rfl
  have hsteps : motionStep (mkState badLines 65536 0 [[]] none [] []) CursorMove.End
      = mkState badLines 0 1 [[]] none [] [] := by
    unfold motionStep
    rw [c4_end_move, c4_constrain]
  rw [hsteps] at ht
  have hopn : opComplete Mode.Normal (mkState badLines 0 1 [[]] none [] [])
      = (Transition.Nop, mkState badLines 0 1 [[]] none [] []) := rfl
  rw [hopn] at ht
  rw [ht]
  refine ⟨rfl, rfl, ?_, ?_, ?_⟩
  · show (badLines.getD 0 []).length = 1
    rw [badLines_first]
    rfl
  · show ¬((1 : Nat) ≤ max 0 ((badLines.getD 0 []).length - 1))
    rw [badLines_first]
    decide
  · rw [badLines_length]
